import Mathlib

/-!
Shallow embedding of the drone build performance / flight-simulation engine
(`backend/utils/build_analysis.py` together with the data model of
`backend/models/components.py`).

Modelling conventions:
* Python floats are modelled as exact rationals (`ℚ`).  `round(x, d)` is
  Python's banker's rounding (round half to even), modelled exactly by `rnd`.
* The two transcendental float operations used by the engine, `t ** 1.8`
  (motor-current curve) and `math.sqrt`, have no exact rational counterpart;
  they are threaded through the definitions as an explicit parameter
  (`FloatOps`).  Theorems about structural properties quantify over all such
  parameters; closed evaluations instantiate them only at arguments (0 and 1)
  where the Python operations are exact.
* Python `int` fields are `ℤ` (`kv`, `capacity`, `motor_count`).
* A Python exception (IndexError / ZeroDivisionError reachable in the source)
  is modelled by `Option`: `none` means the call raises.  Divisions that are
  guarded in the source, or whose divisor is provably nonzero in every theorem
  below, use total `ℚ` division.
* Identification / display-only string fields (id, name, material, …) are
  omitted: the engine never reads them.
-/

/-- Banker's rounding of a rational to an integer: round half to even,
the semantics of Python's built-in `round`. -/
def roundHE (q : ℚ) : ℤ :=
  if q - ⌊q⌋ < 1/2 then ⌊q⌋
  else if 1/2 < q - ⌊q⌋ then ⌊q⌋ + 1
  else if ⌊q⌋ % 2 = 0 then ⌊q⌋ else ⌊q⌋ + 1

/-- Model of Python's `round(q, d)` for d decimal digits. -/
def rnd (d : ℕ) (q : ℚ) : ℚ := (roundHE (q * 10 ^ d) : ℚ) / 10 ^ d

/-- Model of Python's `int()` float-to-int conversion: truncation toward 0. -/
def qtrunc (q : ℚ) : ℤ := if 0 ≤ q then ⌊q⌋ else ⌈q⌉

/-- The two float operations of the engine with no exact rational model:
`powThrottle t` stands for the Python expression `t ** 1.8` and `sqrtFn x`
for `math.sqrt(x)`. -/
structure FloatOps where
  powThrottle : ℚ → ℚ
  sqrtFn : ℚ → ℚ

/-- Reference instance used for closed evaluations.  It agrees with the
Python float operations at every argument at which a closed theorem in this
file evaluates them: `0 ** 1.8 = 0`, `1 ** 1.8 = 1`, `sqrt 0 = 0` and
`sqrt 1 = 1` are all exact in floating point, and the identity function takes
the same values at 0 and 1. -/
def qOps : FloatOps := ⟨fun t => t, fun t => t⟩

structure VoltageRange where
  min : ℚ
  max : ℚ
deriving DecidableEq, Repr

structure Motor where
  kv : ℤ
  weight : ℚ
  max_current : ℚ
  voltage : VoltageRange
  price : ℚ
deriving DecidableEq, Repr

structure ThrustDataPoint where
  kv : ℤ
  thrust : ℚ
deriving DecidableEq, Repr

structure Propeller where
  size : ℚ
  pitch : ℚ
  weight : ℚ
  price : ℚ
  thrust_data : List ThrustDataPoint
deriving DecidableEq, Repr

structure ESC where
  current_rating : ℚ
  weight : ℚ
  voltage : VoltageRange
  price : ℚ
deriving DecidableEq, Repr

structure FlightController where
  weight : ℚ
  max_voltage : ℚ
  price : ℚ
deriving DecidableEq, Repr

structure Frame where
  weight : ℚ
  motor_count : ℤ
  max_prop_size : ℚ
  price : ℚ
deriving DecidableEq, Repr

structure DischargePoint where
  percentage : ℚ
  voltage : ℚ
deriving DecidableEq, Repr

structure Battery where
  capacity : ℤ
  voltage : ℚ
  weight : ℚ
  discharge_profile : List DischargePoint
  price : ℚ
deriving DecidableEq, Repr

structure Receiver where
  weight : ℚ
  current_draw : ℚ
  price : ℚ
deriving DecidableEq, Repr

structure DroneComponents where
  frame : Option Frame
  motors : Option Motor
  propellers : Option Propeller
  esc : Option ESC
  flight_controller : Option FlightController
  battery : Option Battery
  receiver : Option Receiver
deriving DecidableEq, Repr

structure DroneBuild where
  components : DroneComponents
deriving DecidableEq, Repr

inductive WeightRating where
  | light
  | medium
  | heavy
deriving DecidableEq, Repr

inductive ThrustRating where
  | poor
  | adequate
  | good
  | excellent
deriving DecidableEq, Repr

structure PerformanceRating where
  weight : WeightRating
  thrust_to_weight : ThrustRating
deriving DecidableEq, Repr

/-- Performance scorecard.  `twr` is the source's `thrust_to_weight_ratio`
field. -/
structure PerformanceMetrics where
  total_weight : ℚ
  max_thrust : ℚ
  twr : ℚ
  power_draw : ℚ
  rating : PerformanceRating
deriving DecidableEq, Repr

structure DischargeDataPoint where
  time : ℚ
  voltage : ℚ
  remaining_capacity : ℚ
  current_draw : ℚ
deriving DecidableEq, Repr

structure ThrottleProfilePoint where
  throttle : ℚ
  thrust : ℚ
  current : ℚ
  power : ℚ
deriving DecidableEq, Repr

structure FlightSimulation where
  battery_capacity : ℚ
  avg_current_draw : ℚ
  estimated_flight_time : ℚ
  estimated_range : ℚ
  avg_speed : ℚ
  hover_time : ℚ
  max_speed : ℚ
  efficiency : ℚ
  discharge_data : List DischargeDataPoint
  throttle_profile : List ThrottleProfilePoint
deriving DecidableEq, Repr

/-- One constructor per message string produced by `validate_build`; numeric
payloads carry the values interpolated into the corresponding Python
f-string. -/
inductive ValidationMsg where
  | frameRequired
  | motorsRequired
  | propellersRequired
  | batteryRequired
  | escNotSelected
  | fcNotSelected
  | batteryVoltageOutsideMotorRange (batteryV minV maxV : ℚ)
  | batteryVoltageExceedsEscMax (batteryV escMax : ℚ)
  | motorCurrentMayExceedEscRating (motorA escA : ℚ)
  | propSizeExceedsFrameMax (propSize maxSize : ℚ)
deriving DecidableEq, Repr

structure BuildAnalysis where
  is_valid : Bool
  errors : List ValidationMsg
  warnings : List ValidationMsg
  performance : PerformanceMetrics
  flight_simulation : FlightSimulation
  total_cost : ℚ
deriving DecidableEq, Repr

/-- The idiom `build.components.frame.motor_count if build.components.frame
else 4`, recomputed at each use site in the source. -/
def motorCount (b : DroneBuild) : ℤ :=
  b.components.frame.elim 4 (fun f => f.motor_count)

/-- Python's `sorted(thrust_data, key=lambda x: x.kv)`: a stable ascending
sort by kv.  Insertion sort with a non-strict comparison is stable, so it
computes the same list as CPython's stable sort. -/
def sortedThrustData (p : Propeller) : List ThrustDataPoint :=
  p.thrust_data.insertionSort (fun a b => a.kv ≤ b.kv)

/-- The final interpolation loop of `calculate_thrust_for_motor_prop_combo`:
scan adjacent pairs of the sorted samples for the first bracket containing
`kv` and linearly interpolate there. -/
def bracketScan (kv : ℤ) : List ThrustDataPoint → Option ℚ
  | d₁ :: d₂ :: rest =>
    if d₁.kv ≤ kv ∧ kv ≤ d₂.kv then
      some (d₁.thrust + ((kv : ℚ) - d₁.kv) / ((d₂.kv : ℚ) - d₁.kv) * (d₂.thrust - d₁.thrust))
    else bracketScan kv (d₂ :: rest)
  | _ => none

/-- Model of `calculate_thrust_for_motor_prop_combo`.  `none` models the
IndexError the source raises at `sorted_data[0]` when both components are
present but `thrust_data` is empty. -/
def calculate_thrust_for_motor_prop_combo
    (motor : Option Motor) (propeller : Option Propeller) : Option ℚ :=
  match motor, propeller with
  | some m, some p =>
    match p.thrust_data.find? (fun d => d.kv = m.kv) with
    | some d => some d.thrust
    | none =>
      match sortedThrustData p with
      | [] => none
      | a :: rest =>
        if (m.kv : ℚ) < a.kv then some (a.thrust * m.kv / a.kv)
        else
          let z := (a :: rest).getLast (List.cons_ne_nil a rest)
          if (z.kv : ℚ) < m.kv then some (z.thrust * m.kv / z.kv)
          else
            match bracketScan m.kv (a :: rest) with
            | some v => some v
            | none => some 0
  | _, _ => some 0

/-- Unrounded accumulator of `calculate_total_weight` (term order follows the
source; the final `+ 50` is the fixed wiring/fasteners allowance). -/
def totalWeightRaw (b : DroneBuild) : ℚ :=
  b.components.frame.elim 0 (fun f => f.weight)
  + b.components.motors.elim 0 (fun m => m.weight * (motorCount b : ℚ))
  + b.components.propellers.elim 0 (fun p => p.weight * (motorCount b : ℚ))
  + b.components.esc.elim 0 (fun e => e.weight)
  + b.components.flight_controller.elim 0 (fun f => f.weight)
  + b.components.battery.elim 0 (fun bt => bt.weight)
  + b.components.receiver.elim 0 (fun r => r.weight)
  + 50

def calculate_total_weight (b : DroneBuild) : ℚ := rnd 1 (totalWeightRaw b)

def calculate_max_thrust (b : DroneBuild) : Option ℚ :=
  match b.components.motors, b.components.propellers with
  | some m, some p =>
    (calculate_thrust_for_motor_prop_combo (some m) (some p)).map
      (fun t => rnd 1 (t * (motorCount b : ℚ)))
  | _, _ => some 0

/-- `motor.max_current * (throttle ** 1.8)`; 0 for a missing motor. -/
def calculate_current_at_throttle (fns : FloatOps) (motor : Option Motor) (throttle : ℚ) : ℚ :=
  motor.elim 0 (fun m => m.max_current * fns.powThrottle throttle)

def calculate_power_draw (fns : FloatOps) (b : DroneBuild) (throttle : ℚ) : ℚ :=
  match b.components.motors, b.components.battery with
  | some m, some bat =>
    let current_per_motor := calculate_current_at_throttle fns (some m) throttle
    let total_motor_current := current_per_motor * (motorCount b : ℚ)
    let system_current :=
      (if b.components.flight_controller.isSome then (1/2 : ℚ) else 0)
      + b.components.receiver.elim 0 (fun r => r.current_draw / 1000)
    rnd 2 (bat.voltage * (total_motor_current + system_current))
  | _, _ => 0

def get_weight_rating (weight : ℚ) : WeightRating :=
  if weight < 500 then .light
  else if weight < 700 then .medium
  else .heavy

def get_thrust_rating (r : ℚ) : ThrustRating :=
  if r < 3 then .poor
  else if r < 5 then .adequate
  else if r < 8 then .good
  else .excellent

def calculate_performance_metrics (fns : FloatOps) (b : DroneBuild) : Option PerformanceMetrics :=
  let total_weight := calculate_total_weight b
  (calculate_max_thrust b).map (fun max_thrust =>
    let t := if 0 < total_weight then max_thrust / total_weight else 0
    { total_weight := total_weight
      max_thrust := max_thrust
      twr := rnd 2 t
      power_draw := calculate_power_draw fns b (1/2)
      rating := ⟨get_weight_rating total_weight, get_thrust_rating t⟩ })

/-- The system-current accumulator shared verbatim by `calculate_flight_time`
and `calculate_throttle_profile`: an unconditional 0.5 A plus the receiver
draw when a receiver is present.  (Unlike `calculate_power_draw`, the 0.5 A
term is added whether or not a flight controller is attached.) -/
def sweepSystemCurrent (b : DroneBuild) : ℚ :=
  1/2 + b.components.receiver.elim 0 (fun r => r.current_draw / 1000)

/-- One entry of the throttle sweep at integer percentage `pct`, given the
`thrust_per_motor` value the source computes once before the loop.  The
`throttle ** 2` thrust factor is exact (`throttle * throttle`), unlike the
`** 1.8` current curve. -/
def throttlePointAt (fns : FloatOps) (b : DroneBuild) (m : Motor) (bat : Battery)
    (thrust_per_motor : ℚ) (pct : ℕ) : ThrottleProfilePoint :=
  let throttle : ℚ := (pct : ℚ) / 100
  let thrust := thrust_per_motor * (motorCount b : ℚ) * (throttle * throttle)
  let current_per_motor := calculate_current_at_throttle fns (some m) throttle
  let total_current := current_per_motor * (motorCount b : ℚ) + sweepSystemCurrent b
  ⟨rnd 2 throttle, rnd 1 thrust, rnd 2 total_current, rnd 2 (bat.voltage * total_current)⟩

/-- Model of `calculate_throttle_profile`.  With motor, propeller and
battery all present the source first computes `thrust_per_motor` (so the
IndexError it raises on an empty calibration table propagates: `none`),
then emits the 11 points of `range(0, 101, 10)`; with any of the three
absent it returns the empty list. -/
def calculate_throttle_profile (fns : FloatOps) (b : DroneBuild) :
    Option (List ThrottleProfilePoint) :=
  match b.components.motors, b.components.propellers, b.components.battery with
  | some m, some p, some bat =>
    (calculate_thrust_for_motor_prop_combo (some m) (some p)).map
      (fun thrust_per_motor =>
        (List.range 11).map (fun j => throttlePointAt fns b m bat thrust_per_motor (10 * j)))
  | _, _, _ => some []

/-- Model of `calculate_flight_time`; returns
`(flight_time_minutes, avg_current_amps)`.  The source divides by
`avg_current * 1000`, which cannot be zero for the intended instantiation of
`powThrottle` (a nonnegative function) because of the unconditional 0.5 A
system current; the model uses total division. -/
def calculate_flight_time (fns : FloatOps) (b : DroneBuild) (avg_throttle : ℚ) : ℚ × ℚ :=
  match b.components.battery, b.components.motors with
  | some bat, some m =>
    let current_per_motor := calculate_current_at_throttle fns (some m) avg_throttle
    let total_motor_current := current_per_motor * (motorCount b : ℚ)
    let avg_current := total_motor_current + sweepSystemCurrent b
    let usable_capacity := (bat.capacity : ℚ) * (8/10)
    let flight_time_hours := usable_capacity / (avg_current * 1000)
    (rnd 1 (flight_time_hours * 60), rnd 2 avg_current)
  | _, _ => (0, 0)

def calculate_range (flight_time_minutes avg_speed_kmh : ℚ) : ℚ :=
  rnd 2 (flight_time_minutes / 60 * avg_speed_kmh)

def calculate_hover_time (fns : FloatOps) (b : DroneBuild) : Option ℚ :=
  match b.components.battery, b.components.motors with
  | some _, some _ =>
    let total_weight := calculate_total_weight b
    (calculate_max_thrust b).bind (fun max_thrust =>
      if max_thrust = 0 then some 0
      else
        let hover_throttle := min (fns.sqrtFn (total_weight / max_thrust)) 1
        some (rnd 1 (calculate_flight_time fns b hover_throttle).1))
  | _, _ => some 0

def calculate_max_speed (fns : FloatOps) (total_weight max_thrust : ℚ) : ℚ :=
  if total_weight = 0 then 0
  else rnd 1 (60 * fns.sqrtFn ((max_thrust / total_weight) / 5))

/-- The bracket scan of `interpolate_voltage`: adjacent profile pairs, p₁ at
the higher percentage.  The source's interpolation divides by
`p1.percentage - p2.percentage`; every theorem below assumes strictly
descending percentages, where that divisor is nonzero, so total division is
used. -/
def voltageScan (pct : ℚ) : List DischargePoint → Option ℚ
  | p₁ :: p₂ :: rest =>
    if p₂.percentage ≤ pct ∧ pct ≤ p₁.percentage then
      some (p₂.voltage + (pct - p₂.percentage) / (p₁.percentage - p₂.percentage) * (p₁.voltage - p₂.voltage))
    else voltageScan pct (p₂ :: rest)
  | _ => none

/-- Model of `interpolate_voltage`; `none` models the IndexError raised on an
empty profile by the fallback `discharge_profile[0]`. -/
def interpolate_voltage (discharge_profile : List DischargePoint) (pct : ℚ) : Option ℚ :=
  match voltageScan pct discharge_profile with
  | some v => some v
  | none =>
    match discharge_profile, discharge_profile.getLast? with
    | p₀ :: _, some pl => some (if p₀.percentage ≤ pct then p₀.voltage else pl.voltage)
    | _, _ => none

/-- Unrounded remaining capacity at discharge step `i`: the loop body's
`battery.capacity - discharged_mah` with `discharged_mah =
avg_current * 1000 * (time / 60)` and `time = i * 0.5`. -/
def dischargeRemaining (bat : Battery) (avg_current : ℚ) (i : ℕ) : ℚ :=
  (bat.capacity : ℚ) - avg_current * 1000 * ((((i : ℚ) * (1/2))) / 60)

/-- The loop body's `remaining_percentage` at step `i`. -/
def dischargePctAt (bat : Battery) (avg_current : ℚ) (i : ℕ) : ℚ :=
  dischargeRemaining bat avg_current i / (bat.capacity : ℚ) * 100

/-- The data point the loop body appends at a retained step `i`: time and
remaining capacity rounded to 1 decimal, the inverse-interpolated voltage
and the constant-power-adjusted current rounded to 2. -/
def dischargePointAt (bat : Battery) (avg_current : ℚ) (i : ℕ) : DischargeDataPoint :=
  let v := (interpolate_voltage bat.discharge_profile (dischargePctAt bat avg_current i)).getD 0
  ⟨rnd 1 ((i : ℚ) * (1/2)), rnd 2 v, rnd 1 (dischargeRemaining bat avg_current i),
   rnd 2 (if 0 < v then avg_current * (bat.voltage / v) else avg_current)⟩

/-- The discharge-series loop from step `i` with `fuel` iterations left;
each iteration computes the step's remaining percentage, stops (excluding
the point) once it is below 20, and otherwise appends `dischargePointAt`.
`none` models either the ZeroDivisionError of `remaining_capacity /
battery.capacity` at capacity 0 or the IndexError of `interpolate_voltage`
on an empty profile. -/
def dischargeLoop (bat : Battery) (avg_current : ℚ) : ℕ → ℕ → Option (List DischargeDataPoint)
  | _, 0 => some []
  | i, fuel + 1 =>
    if bat.capacity = 0 then none
    else if dischargePctAt bat avg_current i < 20 then some []
    else
      match interpolate_voltage bat.discharge_profile (dischargePctAt bat avg_current i) with
      | none => none
      | some _ =>
        (dischargeLoop bat avg_current (i + 1) fuel).map
          (fun rest => dischargePointAt bat avg_current i :: rest)

/-- Model of `generate_discharge_curve`: points every 0.5 min, stopping
(point excluded) once the remaining percentage drops below 20. -/
def generate_discharge_curve (b : DroneBuild) (flight_time_minutes avg_current : ℚ) :
    Option (List DischargeDataPoint) :=
  match b.components.battery with
  | none => some []
  | some bat =>
    let num_points := (qtrunc (flight_time_minutes / (1/2)) + 1).toNat
    dischargeLoop bat avg_current 0 num_points

/-- The all-zero / all-empty flight-simulation record used both by
`calculate_flight_simulation` (battery absent) and by `analyze_build`
(motor, battery and propeller not all present). -/
def sentinelFS : FlightSimulation := ⟨0, 0, 0, 0, 0, 0, 0, 0, [], []⟩

def calculate_flight_simulation (fns : FloatOps) (b : DroneBuild) : Option FlightSimulation :=
  match b.components.battery with
  | none => some sentinelFS
  | some bat =>
    let ft := calculate_flight_time fns b (1/2)
    let flight_time := ft.1
    let avg_current := ft.2
    (calculate_hover_time fns b).bind (fun hover_time =>
      let total_weight := calculate_total_weight b
      (calculate_max_thrust b).bind (fun max_thrust =>
        let max_speed := calculate_max_speed fns total_weight max_thrust
        let range_km := calculate_range flight_time 45
        let efficiency :=
          if 0 < range_km then ((bat.capacity : ℚ) * (8/10)) / range_km else 0
        (generate_discharge_curve b flight_time avg_current).bind
          (fun discharge_data =>
            (calculate_throttle_profile fns b).map
              (fun throttle_profile =>
                ⟨(bat.capacity : ℚ), avg_current, flight_time, range_km, 45, hover_time,
                 max_speed, rnd 1 efficiency, discharge_data, throttle_profile⟩))))

/-- Model of `validate_build`, returning `(is_valid, errors, warnings)` with
messages in the source's append order. -/
def validate_build (b : DroneBuild) : Bool × List ValidationMsg × List ValidationMsg :=
  let c := b.components
  let errors : List ValidationMsg :=
    (if c.frame.isNone then [.frameRequired] else [])
    ++ (if c.motors.isNone then [.motorsRequired] else [])
    ++ (if c.propellers.isNone then [.propellersRequired] else [])
    ++ (if c.battery.isNone then [.batteryRequired] else [])
    ++ (match c.motors, c.battery with
        | some m, some bat =>
          if ¬(m.voltage.min ≤ bat.voltage ∧ bat.voltage ≤ m.voltage.max) then
            [.batteryVoltageOutsideMotorRange bat.voltage m.voltage.min m.voltage.max]
          else []
        | _, _ => [])
    ++ (match c.esc, c.battery with
        | some e, some bat =>
          if e.voltage.max < bat.voltage then
            [.batteryVoltageExceedsEscMax bat.voltage e.voltage.max]
          else []
        | _, _ => [])
    ++ (match c.propellers, c.frame with
        | some p, some f =>
          if f.max_prop_size < p.size then
            [.propSizeExceedsFrameMax p.size f.max_prop_size]
          else []
        | _, _ => [])
  let warnings : List ValidationMsg :=
    (if c.esc.isNone then [.escNotSelected] else [])
    ++ (if c.flight_controller.isNone then [.fcNotSelected] else [])
    ++ (match c.motors, c.esc with
        | some m, some e =>
          if e.current_rating < m.max_current then
            [.motorCurrentMayExceedEscRating m.max_current e.current_rating]
          else []
        | _, _ => [])
  (errors.isEmpty, errors, warnings)

def calculate_total_cost (b : DroneBuild) : ℚ :=
  rnd 2
    (b.components.frame.elim 0 (fun f => f.price)
     + b.components.motors.elim 0 (fun m => m.price * (motorCount b : ℚ))
     + b.components.propellers.elim 0 (fun p => p.price * 4)
     + b.components.esc.elim 0 (fun e => e.price)
     + b.components.flight_controller.elim 0 (fun f => f.price)
     + b.components.battery.elim 0 (fun bt => bt.price)
     + b.components.receiver.elim 0 (fun r => r.price))

/-- The sentinel performance scorecard of `analyze_build`: all numeric
fields 0 with the hard-coded medium / poor rating. -/
def sentinelPerf : PerformanceMetrics := ⟨0, 0, 0, 0, ⟨.medium, .poor⟩⟩

/-- Model of `analyze_build`, the orchestrator. -/
def analyze_build (fns : FloatOps) (b : DroneBuild) : Option BuildAnalysis :=
  let v := validate_build b
  let core : Option (PerformanceMetrics × FlightSimulation) :=
    if b.components.motors.isSome && b.components.battery.isSome
        && b.components.propellers.isSome then
      (calculate_performance_metrics fns b).bind (fun pm =>
        (calculate_flight_simulation fns b).map (fun fs => (pm, fs)))
    else some (sentinelPerf, sentinelFS)
  core.map (fun pf =>
    ⟨v.1, v.2.1, v.2.2, pf.1, pf.2, calculate_total_cost b⟩)

def emptyBuild : DroneBuild := ⟨⟨none, none, none, none, none, none, none⟩⟩

/-! ### Arithmetic toolkit for the banker's-rounding model -/

lemma roundHE_ge_floor (q : ℚ) : ⌊q⌋ ≤ roundHE q := by
  unfold roundHE; split_ifs <;> omega

lemma roundHE_le_floor_add_one (q : ℚ) : roundHE q ≤ ⌊q⌋ + 1 := by
  unfold roundHE; split_ifs <;> omega

lemma le_roundHE (q : ℚ) : q - 1/2 ≤ (roundHE q : ℚ) := by
  have h0 : (⌊q⌋ : ℚ) ≤ q := Int.floor_le q
  have h1 : q < ⌊q⌋ + 1 := Int.lt_floor_add_one q
  unfold roundHE
  split_ifs <;> push_cast <;> linarith

lemma roundHE_le (q : ℚ) : (roundHE q : ℚ) ≤ q + 1/2 := by
  have h0 : (⌊q⌋ : ℚ) ≤ q := Int.floor_le q
  have h1 : q < ⌊q⌋ + 1 := Int.lt_floor_add_one q
  unfold roundHE
  split_ifs <;> push_cast <;> linarith

lemma roundHE_intCast (n : ℤ) : roundHE (n : ℚ) = n := by
  unfold roundHE
  rw [Int.floor_intCast]
  norm_num

lemma roundHE_mono {q r : ℚ} (h : q ≤ r) : roundHE q ≤ roundHE r := by
  have hqr : ⌊q⌋ ≤ ⌊r⌋ := Int.floor_mono h
  rcases eq_or_lt_of_le hqr with heq | hlt
  · have hcast : (⌊q⌋ : ℚ) = (⌊r⌋ : ℚ) := by exact_mod_cast heq
    unfold roundHE
    split_ifs <;> first | omega | (exfalso; linarith)
  · have h1 := roundHE_le_floor_add_one q
    have h2 := roundHE_ge_floor r
    omega

lemma roundHE_lt {q r : ℚ} (h : q + 1 < r) : roundHE q < roundHE r := by
  have h1 : (roundHE q : ℚ) ≤ q + 1/2 := roundHE_le q
  have h2 : r - 1/2 ≤ (roundHE r : ℚ) := le_roundHE r
  have : (roundHE q : ℚ) < (roundHE r : ℚ) := by linarith
  exact_mod_cast this

lemma rnd_intCast (d : ℕ) (n : ℤ) : rnd d (n : ℚ) = (n : ℚ) := by
  have h : (n : ℚ) * 10 ^ d = ((n * 10 ^ d : ℤ) : ℚ) := by push_cast; ring
  have hp : (0 : ℚ) < 10 ^ d := by positivity
  rw [rnd, h, roundHE_intCast]
  push_cast
  field_simp

lemma rnd_mono (d : ℕ) {q r : ℚ} (h : q ≤ r) : rnd d q ≤ rnd d r := by
  have hp : (0 : ℚ) < 10 ^ d := by positivity
  have hm : q * 10 ^ d ≤ r * 10 ^ d := by
    exact mul_le_mul_of_nonneg_right h (le_of_lt hp)
  have hr : (roundHE (q * 10 ^ d) : ℚ) ≤ (roundHE (r * 10 ^ d) : ℚ) := by
    exact_mod_cast roundHE_mono hm
  exact (div_le_div_right hp).mpr hr

lemma rnd_lt (d : ℕ) {q r : ℚ} (h : q + 1 / 10 ^ d < r) : rnd d q < rnd d r := by
  have hp : (0 : ℚ) < 10 ^ d := by positivity
  have hm : q * 10 ^ d + 1 < r * 10 ^ d := by
    have := mul_lt_mul_of_pos_right h hp
    have hone : (1 / 10 ^ d : ℚ) * 10 ^ d = 1 := by field_simp
    nlinarith
  have hr : (roundHE (q * 10 ^ d) : ℚ) < (roundHE (r * 10 ^ d) : ℚ) := by
    exact_mod_cast roundHE_lt hm
  exact (div_lt_div_right hp).mpr hr

lemma rnd_nat_mul_half (i : ℕ) : rnd 1 ((i : ℚ) * (1/2)) = (i : ℚ) * (1/2) := by
  have h : ((i : ℚ) * (1/2)) * 10 ^ 1 = ((5 * (i : ℤ) : ℤ) : ℚ) := by push_cast; ring
  rw [rnd, h, roundHE_intCast]
  push_cast
  ring

/-! ### Specification-side descriptions and fixtures used by the theorems -/

def timeCap (pt : DischargeDataPoint) : ℚ × ℚ := (pt.time, pt.remaining_capacity)

def currentOf (pt : ThrottleProfilePoint) : ℚ := pt.current

def perfOf (a : BuildAnalysis) : PerformanceMetrics := a.performance

def costOf (a : BuildAnalysis) : ℚ := a.total_cost

def validOf (a : BuildAnalysis) : Bool := a.is_valid

/-- Selector for the seven component slots of a build. -/
inductive CompKind where
  | frame
  | motors
  | propellers
  | esc
  | flightController
  | battery
  | receiver
deriving DecidableEq, Repr

def hasComp (b : DroneBuild) : CompKind → Bool
  | .frame => b.components.frame.isSome
  | .motors => b.components.motors.isSome
  | .propellers => b.components.propellers.isSome
  | .esc => b.components.esc.isSome
  | .flightController => b.components.flight_controller.isSome
  | .battery => b.components.battery.isSome
  | .receiver => b.components.receiver.isSome

/-- Replace the weight of the selected component, when it is attached; all
other data of the build is left unchanged. -/
def setWeight (b : DroneBuild) : CompKind → ℚ → DroneBuild
  | .frame, w =>
    match b.components.frame with
    | none => b
    | some f => ⟨{ b.components with frame := some { f with weight := w } }⟩
  | .motors, w =>
    match b.components.motors with
    | none => b
    | some m => ⟨{ b.components with motors := some { m with weight := w } }⟩
  | .propellers, w =>
    match b.components.propellers with
    | none => b
    | some p => ⟨{ b.components with propellers := some { p with weight := w } }⟩
  | .esc, w =>
    match b.components.esc with
    | none => b
    | some e => ⟨{ b.components with esc := some { e with weight := w } }⟩
  | .flightController, w =>
    match b.components.flight_controller with
    | none => b
    | some f => ⟨{ b.components with flight_controller := some { f with weight := w } }⟩
  | .battery, w =>
    match b.components.battery with
    | none => b
    | some bt => ⟨{ b.components with battery := some { bt with weight := w } }⟩
  | .receiver, w =>
    match b.components.receiver with
    | none => b
    | some r => ⟨{ b.components with receiver := some { r with weight := w } }⟩

/-- How many grams the total weight gains per gram of the selected
component's weight: the motor and propeller weights are multiplied by the
motor count, every other component counts once. -/
def weightMultiplier (b : DroneBuild) : CompKind → ℚ
  | .motors => (motorCount b : ℚ)
  | .propellers => (motorCount b : ℚ)
  | _ => 1

/-- Physical well-formedness of the catalog data attached to a build:
component weights are nonnegative and an attached frame has a nonnegative
motor count. -/
def nonnegWeights (b : DroneBuild) : Prop :=
  b.components.frame.elim True (fun f => 0 ≤ f.weight ∧ 0 ≤ f.motor_count)
  ∧ b.components.motors.elim True (fun m => 0 ≤ m.weight)
  ∧ b.components.propellers.elim True (fun p => 0 ≤ p.weight)
  ∧ b.components.esc.elim True (fun e => 0 ≤ e.weight)
  ∧ b.components.flight_controller.elim True (fun f => 0 ≤ f.weight)
  ∧ b.components.battery.elim True (fun bt => 0 ≤ bt.weight)
  ∧ b.components.receiver.elim True (fun r => 0 ≤ r.weight)

/-- Motor used in the spec's interpolation example: kv 2400. -/
def exMotorC1 : Motor := ⟨2400, 32, 30, ⟨14, 26⟩, 20⟩

/-- Propeller of the spec's interpolation example:
samples kv 2300 -> 1200 g and kv 2600 -> 1400 g. -/
def exPropC1 : Propeller := ⟨5, 3, 4, 3, [⟨2300, 1200⟩, ⟨2600, 1400⟩]⟩

/-- Propeller with a single calibration sample exactly at kv 2400. -/
def wPropC1 : Propeller := ⟨5, 3, 4, 3, [⟨2400, 1300⟩]⟩

/-- Propeller with an empty thrust-calibration table. -/
def emptyPropC8 : Propeller := ⟨5, 3, 4, 3, []⟩

/-- Battery fixture: 1500 mAh, 14.8 V nominal, strictly descending
discharge profile with non-increasing voltages. -/
def batStd : Battery := ⟨1500, 148/10, 180, [⟨100, 21/5⟩, ⟨50, 37/10⟩, ⟨0, 3⟩], 25⟩

/-- Build with motor, propeller and battery but no flight controller and no
receiver. -/
def buildC2 : DroneBuild := ⟨⟨none, some exMotorC1, some wPropC1, none, none, some batStd, none⟩⟩

/-- The throttle sweep `calculate_throttle_profile` produces for `buildC2`
(it exists: `wPropC1` has a non-empty calibration table). -/
def profileC2 : List ThrottleProfilePoint := (calculate_throttle_profile qOps buildC2).getD []

/-- Build whose only component is the battery. -/
def batteryOnlyBuild : DroneBuild := ⟨⟨none, none, none, none, none, some batStd, none⟩⟩

/-- The discharge series `generate_discharge_curve` produces for
`batteryOnlyBuild`, one minute of flight and 18 A average current. -/
def ptsW : List DischargeDataPoint :=
  [⟨0, 21/5, 1500, 6343/100⟩, ⟨1/2, 41/10, 1350, 3249/50⟩, ⟨1, 4, 1200, 333/5⟩]

/-- Motor whose supported voltage range, 19 V to 25.2 V, excludes the 14.8 V
battery `batStd`. -/
def motorV : Motor := ⟨1700, 32, 30, ⟨19, 126/5⟩, 20⟩

/-- Build pairing `motorV` with the incompatible 14.8 V battery. -/
def buildV : DroneBuild := ⟨⟨none, some motorV, none, none, none, some batStd, none⟩⟩

/-- Frame fixture of weight 10 g with the default four motor mounts. -/
def frameStd : Frame := ⟨10, 4, 51/10, 40⟩

/-- Build whose only component is `frameStd`. -/
def bFrameOnly : DroneBuild := ⟨⟨some frameStd, none, none, none, none, none, none⟩⟩

def defaultAnalysis : BuildAnalysis := ⟨true, [], [], sentinelPerf, sentinelFS, 0⟩

/-- The analysis record `analyze_build` returns for the empty build. -/
def analysisW : BuildAnalysis := (analyze_build qOps emptyBuild).getD defaultAnalysis

/-! ### Helper lemmas: sorted thrust data, first-match lookup, brackets -/

instance : IsTotal ThrustDataPoint (fun a b => a.kv ≤ b.kv) :=
  ⟨fun a b => Int.le_total a.kv b.kv⟩

instance : IsTrans ThrustDataPoint (fun a b => a.kv ≤ b.kv) :=
  ⟨fun _ _ _ h₁ h₂ => le_trans h₁ h₂⟩

lemma sortedThrustData_pairwise (p : Propeller) :
    (sortedThrustData p).Pairwise (fun a b => a.kv ≤ b.kv) :=
  List.sorted_insertionSort _ _

lemma sortedThrustData_perm (p : Propeller) :
    List.Perm (sortedThrustData p) p.thrust_data :=
  List.perm_insertionSort _ _

lemma find?_eq_some_of_first {α : Type} (p : α → Bool) :
    ∀ (l : List α) (i : ℕ) (d : α), l[i]? = some d → p d = true →
      (∀ (j : ℕ) (e : α), j < i → l[j]? = some e → p e = false) → l.find? p = some d
  | [], i, d, h, _, _ => by simp at h
  | x :: xs, 0, d, h, hp, _ => by
      simp only [List.getElem?_cons_zero, Option.some.injEq] at h
      subst h
      simp [List.find?_cons, hp]
  | x :: xs, i + 1, d, h, hp, hmin => by
      have hx : p x = false := hmin 0 x (Nat.succ_pos i) (by simp)
      have hrec := find?_eq_some_of_first p xs i d (by simpa using h) hp
        (fun j e hj he => hmin (j + 1) e (by omega) (by simpa using he))
      simp [List.find?_cons, hx, hrec]

lemma mem_of_getLast?_eq {α : Type} : ∀ (l : List α) (z : α), l.getLast? = some z → z ∈ l
  | [], z, h => by simp at h
  | [x], z, h => by
      simp only [List.getLast?_singleton, Option.some.injEq] at h
      simp [h]
  | x :: y :: tl, z, h => by
      rw [List.getLast?_cons_cons] at h
      exact List.mem_cons_of_mem x (mem_of_getLast?_eq (y :: tl) z h)

lemma kv_head_le_of_pairwise {a : ThrustDataPoint} {rest : List ThrustDataPoint}
    (hp : (a :: rest).Pairwise (fun x y => x.kv ≤ y.kv)) :
    ∀ z ∈ a :: rest, a.kv ≤ z.kv := by
  intro z hz
  rcases List.mem_cons.mp hz with h | h
  · exact h ▸ le_refl _
  · exact (List.pairwise_cons.mp hp).1 z h

lemma bracketScan_bracket (kv : ℤ) :
    ∀ (rest : List ThrustDataPoint) (a : ThrustDataPoint),
      (a :: rest).Pairwise (fun x y => x.kv ≤ y.kv) →
      (∀ d ∈ a :: rest, d.kv ≠ kv) →
      a.kv < kv →
      (∀ z, (a :: rest).getLast? = some z → kv < z.kv) →
      ∃ (i : ℕ) (x y : ThrustDataPoint), (a :: rest)[i]? = some x ∧
        (a :: rest)[i + 1]? = some y ∧ x.kv < kv ∧ kv < y.kv ∧
        bracketScan kv (a :: rest) =
          some (x.thrust + ((kv : ℚ) - x.kv) / ((y.kv : ℚ) - x.kv) * (y.thrust - x.thrust)) := by
  intro rest
  induction rest with
  | nil =>
    intro a _ _ hlt hlast
    exact absurd (hlast a (by simp)) (not_lt.mpr (le_of_lt hlt))
  | cons b tl ih =>
    intro a hpair hnm hlt hlast
    by_cases hb : kv ≤ b.kv
    · have hbne : b.kv ≠ kv := hnm b (by simp)
      have hblt : kv < b.kv := lt_of_le_of_ne hb (fun h => hbne h.symm)
      refine ⟨0, a, b, by simp, by simp, hlt, hblt, ?_⟩
      unfold bracketScan
      rw [if_pos ⟨le_of_lt hlt, hb⟩]
    · push_neg at hb
      have hpair' : (b :: tl).Pairwise (fun x y => x.kv ≤ y.kv) :=
        (List.pairwise_cons.mp hpair).2
      have hnm' : ∀ d ∈ b :: tl, d.kv ≠ kv := fun d hd => hnm d (List.mem_cons_of_mem _ hd)
      have hlast' : ∀ z, (b :: tl).getLast? = some z → kv < z.kv := by
        intro z hz
        exact hlast z (by rw [List.getLast?_cons_cons]; exact hz)
      obtain ⟨i, x, y, hx, hy, hxkv, hykv, hscan⟩ := ih b hpair' hnm' hb hlast'
      refine ⟨i + 1, x, y, by simpa using hx, by simpa using hy, hxkv, hykv, ?_⟩
      unfold bracketScan
      rw [if_neg (by intro h; exact absurd h.2 (not_le.mpr hb))]
      exact hscan

/-- C1: thrust_per_motor follows the specified three-case algorithm for every
motor with kv > 0 and every propeller with non-empty thrust data.  A sample
whose kv equals the motor's (the first such sample in catalog order on
duplicates) returns its thrust; otherwise, with samples sorted ascending by
kv, a motor kv below the lowest sample returns lowest.thrust * kv /
lowest.kv, one above the highest returns highest.thrust * kv / highest.kv,
and one in between returns the linear interpolation between the two
bracketing samples (for samples (2300, 1200) and (2600, 1400) at kv 2400
this gives 3800/3, i.e. 1266.67 up to rounding).  A missing motor or
propeller yields 0. -/
theorem C1_thrust_per_motor_algorithm :
    (∀ (m : Motor) (p : Propeller), 0 < m.kv → p.thrust_data ≠ [] →
      (∀ (i : ℕ) (d : ThrustDataPoint), p.thrust_data[i]? = some d → d.kv = m.kv →
          (∀ (j : ℕ) (e : ThrustDataPoint), j < i → p.thrust_data[j]? = some e → e.kv ≠ m.kv) →
          calculate_thrust_for_motor_prop_combo (some m) (some p) = some d.thrust)
      ∧ ((∀ d ∈ p.thrust_data, d.kv ≠ m.kv) →
          ∀ a rest, sortedThrustData p = a :: rest →
            (m.kv < a.kv →
                calculate_thrust_for_motor_prop_combo (some m) (some p)
                  = some (a.thrust * (m.kv : ℚ) / (a.kv : ℚ)))
            ∧ (∀ z, (a :: rest).getLast? = some z → z.kv < m.kv →
                calculate_thrust_for_motor_prop_combo (some m) (some p)
                  = some (z.thrust * (m.kv : ℚ) / (z.kv : ℚ)))
            ∧ (∀ z, (a :: rest).getLast? = some z → a.kv ≤ m.kv → m.kv ≤ z.kv →
                ∃ (i : ℕ) (x y : ThrustDataPoint),
                  (a :: rest)[i]? = some x ∧ (a :: rest)[i + 1]? = some y ∧
                  x.kv < m.kv ∧ m.kv < y.kv ∧
                  calculate_thrust_for_motor_prop_combo (some m) (some p)
                    = some (x.thrust + ((m.kv : ℚ) - x.kv) / ((y.kv : ℚ) - x.kv)
                        * (y.thrust - x.thrust)))))
    ∧ (∀ po, calculate_thrust_for_motor_prop_combo none po = some 0)
    ∧ (∀ mo, calculate_thrust_for_motor_prop_combo mo none = some 0)
    ∧ calculate_thrust_for_motor_prop_combo (some exMotorC1) (some exPropC1)
        = some (3800/3) := by
  refine ⟨?_, ?_, ?_, ?_⟩
  · intro m p _ _
    constructor
    · intro i d hi hd hmin
      have hfind : p.thrust_data.find? (fun d => d.kv = m.kv) = some d := by
        apply find?_eq_some_of_first _ p.thrust_data i d hi (by simp [hd])
        intro j e hj he
        simpa using hmin j e hj he
      simp [calculate_thrust_for_motor_prop_combo, hfind]
    · intro hnm a rest hsort
      have hfind : p.thrust_data.find? (fun d => d.kv = m.kv) = none := by
        rw [List.find?_eq_none]
        intro d hd
        simpa using hnm d hd
      have hpair : (a :: rest).Pairwise (fun x y => x.kv ≤ y.kv) := by
        have := sortedThrustData_pairwise p
        rwa [hsort] at this
      have hnm' : ∀ d ∈ a :: rest, d.kv ≠ m.kv := by
        intro d hd
        exact hnm d ((sortedThrustData_perm p).mem_iff.mp (hsort ▸ hd))
      refine ⟨?_, ?_, ?_⟩
      · intro hlt
        simp only [calculate_thrust_for_motor_prop_combo, hfind, hsort]
        rw [if_pos (by exact_mod_cast hlt)]
      · intro z hz hzlt
        have haz : a.kv ≤ z.kv := kv_head_le_of_pairwise hpair z (mem_of_getLast?_eq _ z hz)
        have hna : ¬ ((m.kv : ℚ) < (a.kv : ℚ)) := by
          exact_mod_cast not_lt.mpr (le_of_lt (lt_of_le_of_lt haz hzlt))
        have hgl : (a :: rest).getLast (List.cons_ne_nil a rest) = z := by
          have h2 := List.getLast?_eq_getLast (a :: rest) (List.cons_ne_nil a rest)
          rw [h2] at hz
          exact Option.some.inj hz
        simp only [calculate_thrust_for_motor_prop_combo, hfind, hsort]
        rw [if_neg hna, hgl, if_pos (by exact_mod_cast hzlt)]
      · intro z hz hma hmz
        have hane : a.kv ≠ m.kv := hnm' a (by simp)
        have hza : a.kv < m.kv := lt_of_le_of_ne hma hane
        have hzne : z.kv ≠ m.kv := hnm' z (mem_of_getLast?_eq _ z hz)
        have hzlt : m.kv < z.kv := lt_of_le_of_ne hmz (fun h => hzne h.symm)
        obtain ⟨i, x, y, hx, hy, hxkv, hykv, hscan⟩ :=
          bracketScan_bracket m.kv rest a hpair hnm' hza
            (fun w hw => by rw [hz] at hw; exact (Option.some.inj hw) ▸ hzlt)
        refine ⟨i, x, y, hx, hy, hxkv, hykv, ?_⟩
        have hna : ¬ ((m.kv : ℚ) < (a.kv : ℚ)) := by
          exact_mod_cast not_lt.mpr (le_of_lt hza)
        have hgl : (a :: rest).getLast (List.cons_ne_nil a rest) = z := by
          have h2 := List.getLast?_eq_getLast (a :: rest) (List.cons_ne_nil a rest)
          rw [h2] at hz
          exact Option.some.inj hz
        have hnz : ¬ ((z.kv : ℚ) < (m.kv : ℚ)) := by
          exact_mod_cast not_lt.mpr (le_of_lt hzlt)
        simp only [calculate_thrust_for_motor_prop_combo, hfind, hsort]
        rw [if_neg hna, hgl, if_neg hnz, hscan]
  · intro po; cases po <;> rfl
  · intro mo; cases mo <;> rfl
  · norm_num [calculate_thrust_for_motor_prop_combo, exMotorC1, exPropC1, sortedThrustData,
      List.insertionSort, List.orderedInsert, List.find?, bracketScan]

/-- Witness for C1: a propeller whose only sample sits exactly at the
motor's kv 2400 returns that sample's thrust, 1300 g. -/
theorem C1_witness :
    calculate_thrust_for_motor_prop_combo (some exMotorC1) (some wPropC1) = some 1300 := by
  have h := (C1_thrust_per_motor_algorithm.1 exMotorC1 wPropC1 (by norm_num [exMotorC1])
      (by norm_num [wPropC1])).1 0 ⟨2400, 1300⟩ (by simp [wPropC1]) (by simp [exMotorC1])
      (fun j e hj _ => absurd hj (by omega))
  simpa using h

/-- C8 exhibit: with the motor present and a propeller whose calibration
table is empty, the source indexes `sorted_data[0]` on an empty list and
raises IndexError (modelled as `none`) instead of returning 0 as the spec
states. -/
theorem C8_empty_thrust_data_raises :
    calculate_thrust_for_motor_prop_combo (some exMotorC1) (some emptyPropC8) = none := rfl

/-- C5: the validator marks a build valid exactly when its error list is
empty; a missing frame, motor, propeller or battery each contributes an
error while a missing ESC or flight controller contributes only a warning
(never an error, and warnings never affect validity); a battery voltage
outside the motor's range yields an error naming the voltage and both range
ends; a motor current above the ESC rating yields a warning, not an error;
an oversized propeller yields an error. -/
theorem C5_validator :
    ∀ b : DroneBuild,
      ((validate_build b).1 = true ↔ (validate_build b).2.1 = [])
      ∧ (b.components.frame = none → ValidationMsg.frameRequired ∈ (validate_build b).2.1)
      ∧ (b.components.motors = none → ValidationMsg.motorsRequired ∈ (validate_build b).2.1)
      ∧ (b.components.propellers = none →
          ValidationMsg.propellersRequired ∈ (validate_build b).2.1)
      ∧ (b.components.battery = none → ValidationMsg.batteryRequired ∈ (validate_build b).2.1)
      ∧ (b.components.esc = none → ValidationMsg.escNotSelected ∈ (validate_build b).2.2)
      ∧ (b.components.flight_controller = none →
          ValidationMsg.fcNotSelected ∈ (validate_build b).2.2)
      ∧ (∀ msg, msg ∈ (validate_build b).2.1 →
          msg ≠ ValidationMsg.escNotSelected ∧ msg ≠ ValidationMsg.fcNotSelected
          ∧ ∀ a e, msg ≠ ValidationMsg.motorCurrentMayExceedEscRating a e)
      ∧ (∀ m bat, b.components.motors = some m → b.components.battery = some bat →
          (bat.voltage < m.voltage.min ∨ m.voltage.max < bat.voltage) →
          ValidationMsg.batteryVoltageOutsideMotorRange bat.voltage m.voltage.min m.voltage.max
            ∈ (validate_build b).2.1)
      ∧ (∀ m e, b.components.motors = some m → b.components.esc = some e →
          e.current_rating < m.max_current →
          ValidationMsg.motorCurrentMayExceedEscRating m.max_current e.current_rating
            ∈ (validate_build b).2.2)
      ∧ (∀ p f, b.components.propellers = some p → b.components.frame = some f →
          f.max_prop_size < p.size →
          ValidationMsg.propSizeExceedsFrameMax p.size f.max_prop_size
            ∈ (validate_build b).2.1) := by
  intro b
  refine ⟨?_, ?_, ?_, ?_, ?_, ?_, ?_, ?_, ?_, ?_, ?_⟩
  · have h : (validate_build b).1 = (validate_build b).2.1.isEmpty := rfl
    rw [h, List.isEmpty_iff]
  · intro hf; simp [validate_build, hf]
  · intro hm; simp [validate_build, hm]
  · intro hp; simp [validate_build, hp]
  · intro hb; simp [validate_build, hb]
  · intro he; simp [validate_build, he]
  · intro hfc; simp [validate_build, hfc]
  · intro msg hmsg
    obtain ⟨⟨fr, mo, pr, es, fc, ba, re⟩⟩ := b
    rcases fr with _ | f <;> rcases mo with _ | m <;> rcases pr with _ | p <;>
      rcases es with _ | e <;> rcases ba with _ | bt <;>
      simp only [validate_build, Option.isNone_none, Option.isNone_some, if_true, if_false,
        Bool.false_eq_true, ite_false, ite_true, List.mem_append, List.mem_singleton,
        List.not_mem_nil, List.nil_append, List.append_nil, or_false, false_or] at hmsg <;>
      refine ⟨fun heq => ?_, fun heq => ?_, fun aa ee heq => ?_⟩ <;> subst heq <;> simp_all
  · intro m bat hm hb hout
    have hcond : ¬(m.voltage.min ≤ bat.voltage ∧ bat.voltage ≤ m.voltage.max) := by
      rcases hout with h | h
      · exact fun hc => absurd hc.1 (not_le.mpr h)
      · exact fun hc => absurd hc.2 (not_le.mpr h)
    simp [validate_build, hm, hb, hcond]
  · intro m e hm he hlt
    simp [validate_build, hm, he, hlt]
  · intro p f hp hf hlt
    simp [validate_build, hp, hf, hlt]

/-- Witness for C5: the empty build produces the frame-required error and
the ESC warning, and a 14.8 V battery against a 19 V - 25.2 V motor range
produces the voltage-incompatibility error carrying both values. -/
theorem C5_witness :
    ValidationMsg.frameRequired ∈ (validate_build emptyBuild).2.1
    ∧ ValidationMsg.escNotSelected ∈ (validate_build emptyBuild).2.2
    ∧ ValidationMsg.batteryVoltageOutsideMotorRange (148/10) 19 (126/5)
        ∈ (validate_build buildV).2.1 := by
  refine ⟨(C5_validator emptyBuild).2.1 rfl, (C5_validator emptyBuild).2.2.2.2.2.1 rfl, ?_⟩
  have h := (C5_validator buildV).2.2.2.2.2.2.2.2.1 motorV batStd rfl rfl
    (Or.inl (by norm_num [motorV, batStd]))
  simpa [motorV, batStd] using h

/-- C9: the engine is deterministic: identical build inputs yield identical
analysis outputs.  The whole pipeline is embedded as pure total functions of
the build (plus the explicit float-operation parameter), with no other
state, which is what makes this congruence statement expressible. -/
theorem C9_deterministic :
    ∀ (fns : FloatOps) (b₁ b₂ : DroneBuild), b₁ = b₂ →
      analyze_build fns b₁ = analyze_build fns b₂ :=
  fun _ _ _ h => h ▸ rfl

/-- Witness for C9 at the empty build. -/
theorem C9_witness : analyze_build qOps emptyBuild = analyze_build qOps emptyBuild :=
  C9_deterministic qOps emptyBuild emptyBuild rfl

/-- C10: when motor, battery and propeller are not all present, the
orchestrator's sentinel scorecard is all-zero with rating weight medium and
thrust poor, even though the weight-rating function itself classifies the
reported weight 0 as light. -/
theorem C10_sentinel_rating :
    ∀ (fns : FloatOps) (b : DroneBuild),
      (b.components.motors = none ∨ b.components.battery = none
        ∨ b.components.propellers = none) →
      (analyze_build fns b).map perfOf = some sentinelPerf
      ∧ sentinelPerf.rating.weight = WeightRating.medium
      ∧ sentinelPerf.total_weight = 0
      ∧ get_weight_rating 0 = WeightRating.light
      ∧ WeightRating.light ≠ WeightRating.medium := by
  intro fns b h
  refine ⟨?_, rfl, rfl, by norm_num [get_weight_rating], by simp⟩
  have hcond : (b.components.motors.isSome && b.components.battery.isSome
      && b.components.propellers.isSome) = false := by
    rcases h with h | h | h <;> simp [h]
  simp [analyze_build, hcond, perfOf]

/-- Witness for C10 at the empty build. -/
theorem C10_witness : (analyze_build qOps emptyBuild).map perfOf = some sentinelPerf :=
  (C10_sentinel_rating qOps emptyBuild (Or.inl rfl)).1

/-- C3 (amended): `calculate_flight_simulation` itself returns the all-zero,
all-empty sentinel record exactly in the battery-absent case; the claimed
three-way motor/battery/propeller guard lives in `analyze_build`, not here
(see the counterexample). -/
theorem C3_sentinel_when_battery_absent :
    ∀ (fns : FloatOps) (b : DroneBuild), b.components.battery = none →
      calculate_flight_simulation fns b = some sentinelFS := by
  intro fns b h
  simp [calculate_flight_simulation, h]

/-- Witness for C3 at the empty build. -/
theorem C3_witness : calculate_flight_simulation qOps emptyBuild = some sentinelFS :=
  C3_sentinel_when_battery_absent qOps emptyBuild rfl

/-- Counterexample to C3 as stated: a build with a battery but no motor and
no propeller (so motor/battery/propeller are not all present) gets a
flight-simulation record with the true battery capacity 1500 and a
non-empty discharge series, not the all-zero sentinel. -/
theorem C3_counterexample :
    calculate_flight_simulation qOps batteryOnlyBuild
      = some ⟨1500, 0, 0, 0, 45, 0, 0, 0, [⟨0, 21/5, 1500, 0⟩], []⟩
    ∧ (1500 : ℚ) ≠ 0 := by
  constructor
  · norm_num [calculate_flight_simulation, batteryOnlyBuild, batStd, calculate_flight_time,
      calculate_hover_time, calculate_max_thrust, calculate_total_weight, totalWeightRaw,
      calculate_max_speed, calculate_range, generate_discharge_curve, dischargeLoop,
      dischargePctAt, dischargeRemaining, dischargePointAt,
      interpolate_voltage, voltageScan, calculate_throttle_profile, qtrunc, rnd, roundHE,
      motorCount, qOps, sweepSystemCurrent, calculate_current_at_throttle]
  · norm_num

/-- C7: the orchestrator's `total_cost` field always equals
`calculate_total_cost`, which is the 2-decimal-rounded sum over present
components of unit price times multiplier (motor_count for the motor, a
fixed 4 for the propeller, 1 otherwise; absent components contribute 0);
it is computed regardless of validity, so the fully empty build reports
cost 0 alongside is_valid = false. -/
theorem C7_total_cost :
    (∀ (fns : FloatOps) (b : DroneBuild) (r : BuildAnalysis),
        analyze_build fns b = some r → r.total_cost = calculate_total_cost b)
    ∧ (∀ b : DroneBuild, calculate_total_cost b
        = rnd 2 (b.components.frame.elim 0 (fun f => f.price)
            + b.components.motors.elim 0 (fun m => m.price * (motorCount b : ℚ))
            + b.components.propellers.elim 0 (fun p => p.price * 4)
            + b.components.esc.elim 0 (fun e => e.price)
            + b.components.flight_controller.elim 0 (fun f => f.price)
            + b.components.battery.elim 0 (fun bt => bt.price)
            + b.components.receiver.elim 0 (fun r => r.price)))
    ∧ (analyze_build qOps emptyBuild).map costOf = some 0
    ∧ (analyze_build qOps emptyBuild).map validOf = some false := by
  refine ⟨?_, fun b => rfl, ?_, ?_⟩
  · intro fns b r h
    simp only [analyze_build] at h
    rcases Option.map_eq_some'.mp h with ⟨pf, _, hr⟩
    rw [← hr]
  · norm_num [analyze_build, emptyBuild, calculate_total_cost, motorCount, rnd, roundHE,
      validate_build, costOf]
  · norm_num [analyze_build, emptyBuild, validate_build, validOf]

/-- Witness for C7: the empty build's analysis record (it exists and is
unique) carries total cost `calculate_total_cost emptyBuild`. -/
theorem C7_witness :
    (⟨false,
      [ValidationMsg.frameRequired, ValidationMsg.motorsRequired,
       ValidationMsg.propellersRequired, ValidationMsg.batteryRequired],
      [ValidationMsg.escNotSelected, ValidationMsg.fcNotSelected],
      sentinelPerf, sentinelFS, 0⟩ : BuildAnalysis).total_cost
      = calculate_total_cost emptyBuild := by
  apply C7_total_cost.1 qOps emptyBuild
  norm_num [analyze_build, emptyBuild, validate_build, calculate_total_cost, motorCount, rnd,
    roundHE]

/-- C2 (amended): in `calculate_flight_time` and the 11-point throttle sweep
the avionics baseline is `sweepSystemCurrent`: an unconditional 0.5 A plus
the receiver draw when a receiver is present, added whether or not a flight
controller is attached.  With that baseline the cruise average current and
every sweep current equal motor_count * current_at_throttle(motor, throttle)
+ baseline, after the source's 2-decimal rounding.  (The claim's
flight-controller-conditional baseline describes `calculate_power_draw`
only; see the counterexample.) -/
theorem C2_cruise_and_sweep_current :
    ∀ (fns : FloatOps) (b : DroneBuild) (m : Motor) (bat : Battery),
      b.components.motors = some m → b.components.battery = some bat →
      (∀ t : ℚ, (calculate_flight_time fns b t).2
          = rnd 2 ((motorCount b : ℚ) * calculate_current_at_throttle fns (some m) t
              + sweepSystemCurrent b))
      ∧ (∀ (l : List ThrottleProfilePoint) (k : ℕ) (pt : ThrottleProfilePoint),
          calculate_throttle_profile fns b = some l → l[k]? = some pt →
          pt.current = rnd 2 ((motorCount b : ℚ)
              * calculate_current_at_throttle fns (some m) ((k : ℚ) / 10)
              + sweepSystemCurrent b))
      ∧ sweepSystemCurrent b
          = 1/2 + b.components.receiver.elim 0 (fun r => r.current_draw / 1000) := by
  intro fns b m bat hm hb
  refine ⟨?_, ?_, rfl⟩
  · intro t
    simp only [calculate_flight_time, hm, hb]
    congr 1
    ring
  · intro l k pt hl hpt
    rcases hp : b.components.propellers with _ | p
    · simp only [calculate_throttle_profile, hm, hb, hp, Option.some.injEq] at hl
      rw [← hl] at hpt
      simp at hpt
    · simp only [calculate_throttle_profile, hm, hb, hp] at hl
      rcases Option.map_eq_some'.mp hl with ⟨tpm, _, hlist⟩
      subst hlist
      by_cases hk : k < 11
      · simp only [List.getElem?_map, List.getElem?_range hk, Option.map_some',
          Option.some.injEq] at hpt
        rw [← hpt]
        simp only [throttlePointAt, calculate_current_at_throttle, Option.elim]
        congr 1
        have harg : ((10 * k : ℕ) : ℚ) / 100 = (k : ℚ) / 10 := by push_cast; ring
        rw [harg]
        ring
      · exfalso
        rw [List.getElem?_eq_none (by simp; omega)] at hpt
        exact Option.noConfusion hpt

/-- Witness for C2 at the cruise throttle 0.5 on a motor/battery/propeller
build without flight controller or receiver. -/
theorem C2_witness :
    (calculate_flight_time qOps buildC2 (1/2)).2
      = rnd 2 ((motorCount buildC2 : ℚ)
          * calculate_current_at_throttle qOps (some exMotorC1) (1/2)
          + sweepSystemCurrent buildC2) :=
  (C2_cruise_and_sweep_current qOps buildC2 exMotorC1 batStd rfl rfl).1 (1/2)

/-- Counterexample to C2 as stated: `buildC2` has no flight controller and
no receiver, so the claim says its avionics baseline is 0 and the sweep
entry at full throttle carries current motor_count * current_at_throttle
(motor, 1) + 0 = 120 A; the code instead reports 120.5 A because the 0.5 A
term is added unconditionally. -/
theorem C2_counterexample :
    calculate_throttle_profile qOps buildC2 = some profileC2
    ∧ (profileC2[10]?).map currentOf = some (241/2)
    ∧ (motorCount buildC2 : ℚ) * calculate_current_at_throttle qOps (some exMotorC1) 1 + 0
        = 120
    ∧ (241/2 : ℚ) ≠ 120 := by
  have hprof : calculate_throttle_profile qOps buildC2
      = some ((List.range 11).map (fun j =>
          throttlePointAt qOps buildC2 exMotorC1 batStd 1300 (10 * j))) := by
    norm_num [calculate_throttle_profile, buildC2, exMotorC1, wPropC1, batStd,
      calculate_thrust_for_motor_prop_combo, List.find?]
  have hpc2 : profileC2 = (List.range 11).map (fun j =>
      throttlePointAt qOps buildC2 exMotorC1 batStd 1300 (10 * j)) := by
    unfold profileC2
    rw [hprof]
    rfl
  refine ⟨by rw [hprof, hpc2],
    ?_, by norm_num [motorCount, buildC2, calculate_current_at_throttle, qOps, exMotorC1],
    by norm_num⟩
  rw [hpc2]
  norm_num [buildC2, exMotorC1, batStd, throttlePointAt, List.getElem?_map,
    List.getElem?_range, calculate_current_at_throttle, sweepSystemCurrent, motorCount, qOps,
    currentOf, rnd, roundHE]

/-! ### Helper lemmas for the total-weight claim -/

lemma setWeight_absent (b : DroneBuild) (k : CompKind) (w : ℚ) (h : hasComp b k = false) :
    setWeight b k w = b := by
  cases k with
  | frame =>
    rcases hc : b.components.frame with _ | c
    · simp [setWeight, hc]
    · simp [hasComp, hc] at h
  | motors =>
    rcases hc : b.components.motors with _ | c
    · simp [setWeight, hc]
    · simp [hasComp, hc] at h
  | propellers =>
    rcases hc : b.components.propellers with _ | c
    · simp [setWeight, hc]
    · simp [hasComp, hc] at h
  | esc =>
    rcases hc : b.components.esc with _ | c
    · simp [setWeight, hc]
    · simp [hasComp, hc] at h
  | flightController =>
    rcases hc : b.components.flight_controller with _ | c
    · simp [setWeight, hc]
    · simp [hasComp, hc] at h
  | battery =>
    rcases hc : b.components.battery with _ | c
    · simp [setWeight, hc]
    · simp [hasComp, hc] at h
  | receiver =>
    rcases hc : b.components.receiver with _ | c
    · simp [setWeight, hc]
    · simp [hasComp, hc] at h

lemma totalWeightRaw_setWeight (b : DroneBuild) (k : CompKind) (w : ℚ)
    (h : hasComp b k = true) :
    totalWeightRaw (setWeight b k w)
      = totalWeightRaw (setWeight b k 0) + w * weightMultiplier b k := by
  cases k <;>
    simp only [hasComp, Option.isSome_iff_exists] at h <;>
    obtain ⟨c, hc⟩ := h <;>
    simp [setWeight, hc, totalWeightRaw, motorCount, weightMultiplier] <;>
    ring

lemma motorCount_nonneg_of {b : DroneBuild} (hn : nonnegWeights b) :
    (0 : ℚ) ≤ (motorCount b : ℚ) := by
  rcases hc : b.components.frame with _ | f
  · simp [motorCount, hc]
  · have h1 := hn.1
    rw [hc] at h1
    simp only [Option.elim] at h1
    simp only [motorCount, hc, Option.elim]
    exact_mod_cast h1.2

/-- C6 (amended): for well-formed (nonnegative) component data the total
weight is at least the fixed 50 g allowance; the returned weight is
non-decreasing in any attached component's weight, and strictly increases
once the weight increase times the component's multiplier (motor_count for
motor and propeller, 1 otherwise) exceeds 0.1 g, the resolution of the
1-decimal rounding the source applies.  An increase below that resolution
can leave the rounded result unchanged: see the counterexample. -/
theorem C6_weight_bounds_and_monotone :
    (∀ b : DroneBuild, nonnegWeights b → 50 ≤ calculate_total_weight b)
    ∧ (∀ (b : DroneBuild) (k : CompKind) (w₁ w₂ : ℚ), w₁ ≤ w₂ →
        0 ≤ weightMultiplier b k →
        calculate_total_weight (setWeight b k w₁) ≤ calculate_total_weight (setWeight b k w₂))
    ∧ (∀ (b : DroneBuild) (k : CompKind) (w₁ w₂ : ℚ), hasComp b k = true →
        1/10 < (w₂ - w₁) * weightMultiplier b k →
        calculate_total_weight (setWeight b k w₁)
          < calculate_total_weight (setWeight b k w₂)) := by
  refine ⟨?_, ?_, ?_⟩
  · intro b hn
    obtain ⟨hf, hm, hp, he, hfc, hb, hr⟩ := hn
    have hcount : (0 : ℚ) ≤ (motorCount b : ℚ) :=
      motorCount_nonneg_of ⟨hf, hm, hp, he, hfc, hb, hr⟩
    have h1 : 0 ≤ b.components.frame.elim 0 (fun f => f.weight) := by
      rcases hc : b.components.frame with _ | f
      · simp
      · rw [hc] at hf; simp only [Option.elim] at hf ⊢; exact hf.1
    have h2 : 0 ≤ b.components.motors.elim 0 (fun m => m.weight * (motorCount b : ℚ)) := by
      rcases hc : b.components.motors with _ | m
      · simp
      · rw [hc] at hm; simp only [Option.elim] at hm ⊢; exact mul_nonneg hm hcount
    have h3 : 0 ≤ b.components.propellers.elim 0 (fun p => p.weight * (motorCount b : ℚ)) := by
      rcases hc : b.components.propellers with _ | p
      · simp
      · rw [hc] at hp; simp only [Option.elim] at hp ⊢; exact mul_nonneg hp hcount
    have h4 : 0 ≤ b.components.esc.elim 0 (fun e => e.weight) := by
      rcases hc : b.components.esc with _ | e
      · simp
      · rw [hc] at he; simp only [Option.elim] at he ⊢; exact he
    have h5 : 0 ≤ b.components.flight_controller.elim 0 (fun f => f.weight) := by
      rcases hc : b.components.flight_controller with _ | f
      · simp
      · rw [hc] at hfc; simp only [Option.elim] at hfc ⊢; exact hfc
    have h6 : 0 ≤ b.components.battery.elim 0 (fun bt => bt.weight) := by
      rcases hc : b.components.battery with _ | bt
      · simp
      · rw [hc] at hb; simp only [Option.elim] at hb ⊢; exact hb
    have h7 : 0 ≤ b.components.receiver.elim 0 (fun r => r.weight) := by
      rcases hc : b.components.receiver with _ | r
      · simp
      · rw [hc] at hr; simp only [Option.elim] at hr ⊢; exact hr
    have hraw : (50 : ℚ) ≤ totalWeightRaw b := by
      unfold totalWeightRaw
      linarith
    have h50 : rnd 1 ((50 : ℤ) : ℚ) = ((50 : ℤ) : ℚ) := rnd_intCast 1 50
    push_cast at h50
    have := rnd_mono 1 hraw
    rw [h50] at this
    exact this
  · intro b k w₁ w₂ hw hmult
    by_cases h : hasComp b k = true
    · apply rnd_mono
      rw [totalWeightRaw_setWeight b k w₁ h, totalWeightRaw_setWeight b k w₂ h]
      have := mul_le_mul_of_nonneg_right hw hmult
      linarith
    · rw [setWeight_absent b k w₁ (by simpa using h), setWeight_absent b k w₂ (by simpa using h)]
  · intro b k w₁ w₂ hk hgt
    apply rnd_lt
    rw [totalWeightRaw_setWeight b k w₁ hk, totalWeightRaw_setWeight b k w₂ hk]
    have hexp : w₂ * weightMultiplier b k - w₁ * weightMultiplier b k
        = (w₂ - w₁) * weightMultiplier b k := by ring
    have hpow : (1 : ℚ) / 10 ^ 1 = 1/10 := by norm_num
    rw [hpow]
    linarith

/-- Witness for C6: raising the only attached component's weight from 10 g
to 11 g (multiplier 1, increase beyond the 0.1 g rounding resolution)
strictly increases the total. -/
theorem C6_witness :
    calculate_total_weight (setWeight bFrameOnly CompKind.frame 10)
      < calculate_total_weight (setWeight bFrameOnly CompKind.frame 11) :=
  C6_weight_bounds_and_monotone.2.2 bFrameOnly CompKind.frame 10 11 rfl
    (by norm_num [weightMultiplier])

/-- Counterexample to C6 as stated: increasing the frame weight from 10 g to
10.05 g (all other inputs fixed) leaves the returned total weight unchanged
at 60.0 g because of the 1-decimal banker's rounding, so the result is not
strictly increasing in an attached component's weight. -/
theorem C6_counterexample :
    calculate_total_weight bFrameOnly = 60
    ∧ calculate_total_weight (setWeight bFrameOnly CompKind.frame (1005/100)) = 60
    ∧ frameStd.weight < 1005/100 := by
  refine ⟨?_, ?_, by norm_num [frameStd]⟩ <;>
    norm_num [calculate_total_weight, totalWeightRaw, bFrameOnly, frameStd, setWeight,
      motorCount, rnd, roundHE]

/-! ### Helper lemmas: the inverse voltage interpolation -/

lemma voltageScan_none_of_gt {x : ℚ} :
    ∀ {l : List DischargePoint}, (∀ d ∈ l, d.percentage < x) → voltageScan x l = none
  | [], _ => rfl
  | [_], _ => rfl
  | p₀ :: p₁ :: tl, h => by
    unfold voltageScan
    rw [if_neg (fun hc => absurd hc.2 (not_le.mpr (h p₀ (by simp))))]
    exact voltageScan_none_of_gt (fun d hd => h d (List.mem_cons_of_mem _ hd))

lemma voltageScan_none_of_lt {x : ℚ} :
    ∀ {l : List DischargePoint}, (∀ d ∈ l, x < d.percentage) → voltageScan x l = none
  | [], _ => rfl
  | [_], _ => rfl
  | p₀ :: p₁ :: tl, h => by
    unfold voltageScan
    rw [if_neg (fun hc => absurd hc.1 (not_le.mpr (h p₁ (by simp))))]
    exact voltageScan_none_of_lt (fun d hd => h d (List.mem_cons_of_mem _ hd))

lemma pct_head_max {p₀ : DischargePoint} {tl : List DischargePoint}
    (hp : (p₀ :: tl).Pairwise (fun a b => b.percentage < a.percentage)) :
    ∀ d ∈ p₀ :: tl, d.percentage ≤ p₀.percentage := by
  intro d hd
  rcases List.mem_cons.mp hd with h | h
  · exact h ▸ le_refl _
  · exact le_of_lt ((List.pairwise_cons.mp hp).1 d h)

lemma pct_last_min :
    ∀ (l : List DischargePoint), l.Pairwise (fun a b => b.percentage < a.percentage) →
      ∀ pl, l.getLast? = some pl → ∀ d ∈ l, pl.percentage ≤ d.percentage
  | [], _, pl, h => by simp at h
  | [p], _, pl, h => by
    simp only [List.getLast?_singleton, Option.some.injEq] at h
    intro d hd
    rcases List.mem_singleton.mp hd with rfl
    rw [← h]
  | p₀ :: p₁ :: tl, hp, pl, h => by
    rw [List.getLast?_cons_cons] at h
    have ih := pct_last_min (p₁ :: tl) (List.pairwise_cons.mp hp).2 pl h
    intro d hd
    rcases List.mem_cons.mp hd with rfl | hd'
    · have h1 := ih p₁ (by simp)
      have h2 := (List.pairwise_cons.mp hp).1 p₁ (by simp)
      linarith
    · exact ih d hd'

lemma interp_of_scan_some {l : List DischargePoint} {x v : ℚ}
    (h : voltageScan x l = some v) : interpolate_voltage l x = some v := by
  unfold interpolate_voltage
  rw [h]

lemma voltageScan_cons_bracket {p₀ p₁ : DischargePoint} {tl : List DischargePoint} {x : ℚ}
    (h₁ : p₁.percentage ≤ x) (h₂ : x ≤ p₀.percentage) :
    voltageScan x (p₀ :: p₁ :: tl)
      = some (p₁.voltage + (x - p₁.percentage) / (p₀.percentage - p₁.percentage)
          * (p₀.voltage - p₁.voltage)) := by
  unfold voltageScan
  rw [if_pos ⟨h₁, h₂⟩]

lemma interp_above {p₀ : DischargePoint} {tl : List DischargePoint} {x : ℚ}
    (hp : (p₀ :: tl).Pairwise (fun a b => b.percentage < a.percentage))
    (hx : p₀.percentage < x) :
    interpolate_voltage (p₀ :: tl) x = some p₀.voltage := by
  have hscan : voltageScan x (p₀ :: tl) = none :=
    voltageScan_none_of_gt (fun d hd => lt_of_le_of_lt (pct_head_max hp d hd) hx)
  have hgl : (p₀ :: tl).getLast? = some ((p₀ :: tl).getLast (List.cons_ne_nil p₀ tl)) :=
    List.getLast?_eq_getLast _ _
  simp only [interpolate_voltage, hscan, hgl]
  rw [if_pos (le_of_lt hx)]

lemma interp_below :
    ∀ {l : List DischargePoint}, l.Pairwise (fun a b => b.percentage < a.percentage) →
    ∀ {pl : DischargePoint}, l.getLast? = some pl → ∀ {x : ℚ}, x < pl.percentage →
    interpolate_voltage l x = some pl.voltage := by
  intro l hp pl hgl x hx
  have hmin := pct_last_min l hp pl hgl
  have hscan : voltageScan x l = none :=
    voltageScan_none_of_lt (fun d hd => lt_of_lt_of_le hx (hmin d hd))
  rcases l with _ | ⟨p₀, tl⟩
  · simp at hgl
  · have hgl2 : (p₀ :: tl).getLast? = some ((p₀ :: tl).getLast (List.cons_ne_nil p₀ tl)) :=
      List.getLast?_eq_getLast _ _
    have hgleq : (p₀ :: tl).getLast (List.cons_ne_nil p₀ tl) = pl := by
      rw [hgl2] at hgl
      exact Option.some.inj hgl
    have hx0 : ¬ (p₀.percentage ≤ x) := by
      have := hmin p₀ (by simp)
      push_neg
      linarith
    simp only [interpolate_voltage, hscan, hgl2, hgleq]
    rw [if_neg hx0]

lemma interp_cons_of_lt {p₀ p₁ : DischargePoint} {tl : List DischargePoint} {x : ℚ}
    (hd : p₁.percentage < p₀.percentage) (hx : x < p₁.percentage) :
    interpolate_voltage (p₀ :: p₁ :: tl) x = interpolate_voltage (p₁ :: tl) x := by
  have hstep : voltageScan x (p₀ :: p₁ :: tl) = voltageScan x (p₁ :: tl) := by
    have hone : voltageScan x (p₀ :: p₁ :: tl)
        = if p₁.percentage ≤ x ∧ x ≤ p₀.percentage then
            some (p₁.voltage + (x - p₁.percentage) / (p₀.percentage - p₁.percentage)
              * (p₀.voltage - p₁.voltage))
          else voltageScan x (p₁ :: tl) := rfl
    rw [hone, if_neg (fun hc => absurd hc.1 (not_le.mpr hx))]
  rcases hs : voltageScan x (p₁ :: tl) with _ | v
  · have hgl2 : (p₁ :: tl).getLast? = some ((p₁ :: tl).getLast (List.cons_ne_nil p₁ tl)) :=
      List.getLast?_eq_getLast _ _
    have hgl3 : (p₀ :: p₁ :: tl).getLast? = some ((p₁ :: tl).getLast (List.cons_ne_nil p₁ tl)) := by
      rw [List.getLast?_cons_cons]
      exact hgl2
    simp only [interpolate_voltage, hstep, hs, hgl2, hgl3]
    rw [if_neg (by push_neg; linarith), if_neg (by push_neg; exact hx)]
  · simp only [interpolate_voltage, hstep, hs]

lemma interp_isSome {l : List DischargePoint} (hne : l ≠ []) (x : ℚ) :
    ∃ v, interpolate_voltage l x = some v := by
  rcases hs : voltageScan x l with _ | v
  · rcases l with _ | ⟨p₀, tl⟩
    · exact absurd rfl hne
    · have hgl : (p₀ :: tl).getLast? = some ((p₀ :: tl).getLast (List.cons_ne_nil p₀ tl)) :=
        List.getLast?_eq_getLast _ _
      exact ⟨if p₀.percentage ≤ x then p₀.voltage
             else ((p₀ :: tl).getLast (List.cons_ne_nil p₀ tl)).voltage,
        by simp only [interpolate_voltage, hs, hgl]⟩
  · exact ⟨v, interp_of_scan_some hs⟩

lemma interp_le_head :
    ∀ (tl : List DischargePoint) (p₀ : DischargePoint),
      (p₀ :: tl).Pairwise (fun a b => b.percentage < a.percentage) →
      (p₀ :: tl).Pairwise (fun a b => b.voltage ≤ a.voltage) →
      ∀ x : ℚ, (interpolate_voltage (p₀ :: tl) x).getD 0 ≤ p₀.voltage
  | [], p₀, _, _, x => by
    have hscan : voltageScan x [p₀] = none := rfl
    have hgl : ([p₀] : List DischargePoint).getLast? = some p₀ := rfl
    simp only [interpolate_voltage, hscan, hgl]
    split_ifs <;> simp
  | p₁ :: tl, p₀, hp, hv, x => by
    have hd : p₁.percentage < p₀.percentage := (List.pairwise_cons.mp hp).1 p₁ (by simp)
    have hdv : p₁.voltage ≤ p₀.voltage := (List.pairwise_cons.mp hv).1 p₁ (by simp)
    by_cases h1 : p₀.percentage < x
    · rw [interp_above hp h1]
      simp
    · by_cases h2 : x < p₁.percentage
      · rw [interp_cons_of_lt hd h2]
        exact le_trans
          (interp_le_head tl p₁ (List.pairwise_cons.mp hp).2 (List.pairwise_cons.mp hv).2 x) hdv
      · push_neg at h1 h2
        rw [interp_of_scan_some (voltageScan_cons_bracket h2 h1)]
        simp only [Option.getD_some]
        have hdpos : 0 < p₀.percentage - p₁.percentage := by linarith
        have ht1 : (x - p₁.percentage) / (p₀.percentage - p₁.percentage) ≤ 1 := by
          rw [div_le_one hdpos]
          linarith
        have hdv0 : 0 ≤ p₀.voltage - p₁.voltage := by linarith
        linarith [mul_le_mul_of_nonneg_right ht1 hdv0]

lemma interp_mono :
    ∀ (tl : List DischargePoint) (p₀ : DischargePoint),
      (p₀ :: tl).Pairwise (fun a b => b.percentage < a.percentage) →
      (p₀ :: tl).Pairwise (fun a b => b.voltage ≤ a.voltage) →
      ∀ x y : ℚ, x ≤ y →
      (interpolate_voltage (p₀ :: tl) x).getD 0 ≤ (interpolate_voltage (p₀ :: tl) y).getD 0
  | [], p₀, _, _, x, y, _ => by
    have hsx : voltageScan x [p₀] = none := rfl
    have hsy : voltageScan y [p₀] = none := rfl
    have hgl : ([p₀] : List DischargePoint).getLast? = some p₀ := rfl
    simp only [interpolate_voltage, hsx, hsy, hgl]
    split_ifs <;> simp
  | p₁ :: tl, p₀, hp, hv, x, y, hxy => by
    have hd : p₁.percentage < p₀.percentage := (List.pairwise_cons.mp hp).1 p₁ (by simp)
    have hdv : p₁.voltage ≤ p₀.voltage := (List.pairwise_cons.mp hv).1 p₁ (by simp)
    have hdpos : 0 < p₀.percentage - p₁.percentage := by linarith
    by_cases hx1 : p₀.percentage < x
    · rw [interp_above hp hx1, interp_above hp (lt_of_lt_of_le hx1 hxy)]
    · push_neg at hx1
      by_cases hx2 : x < p₁.percentage
      · rw [interp_cons_of_lt hd hx2]
        by_cases hy2 : y < p₁.percentage
        · rw [interp_cons_of_lt hd hy2]
          exact interp_mono tl p₁ (List.pairwise_cons.mp hp).2 (List.pairwise_cons.mp hv).2 x y hxy
        · push_neg at hy2
          have hxle : (interpolate_voltage (p₁ :: tl) x).getD 0 ≤ p₁.voltage :=
            interp_le_head tl p₁ (List.pairwise_cons.mp hp).2 (List.pairwise_cons.mp hv).2 x
          by_cases hy1 : p₀.percentage < y
          · rw [interp_above hp hy1]
            simp only [Option.getD_some]
            linarith
          · push_neg at hy1
            rw [interp_of_scan_some (voltageScan_cons_bracket hy2 hy1)]
            simp only [Option.getD_some]
            have hty : 0 ≤ (y - p₁.percentage) / (p₀.percentage - p₁.percentage) :=
              div_nonneg (by linarith) (le_of_lt hdpos)
            have hdv0 : 0 ≤ p₀.voltage - p₁.voltage := by linarith
            linarith [mul_nonneg hty hdv0]
      · push_neg at hx2
        rw [interp_of_scan_some (voltageScan_cons_bracket hx2 hx1)]
        by_cases hy1 : p₀.percentage < y
        · rw [interp_above hp hy1]
          simp only [Option.getD_some]
          have ht1 : (x - p₁.percentage) / (p₀.percentage - p₁.percentage) ≤ 1 := by
            rw [div_le_one hdpos]
            linarith
          have hdv0 : 0 ≤ p₀.voltage - p₁.voltage := by linarith
          linarith [mul_le_mul_of_nonneg_right ht1 hdv0]
        · push_neg at hy1
          rw [interp_of_scan_some (voltageScan_cons_bracket (le_trans hx2 hxy) hy1)]
          simp only [Option.getD_some]
          have key : (p₁.voltage + (y - p₁.percentage) / (p₀.percentage - p₁.percentage)
                * (p₀.voltage - p₁.voltage))
              - (p₁.voltage + (x - p₁.percentage) / (p₀.percentage - p₁.percentage)
                * (p₀.voltage - p₁.voltage))
              = ((y - x) / (p₀.percentage - p₁.percentage)) * (p₀.voltage - p₁.voltage) := by
            ring
          have hnn : 0 ≤ ((y - x) / (p₀.percentage - p₁.percentage))
              * (p₀.voltage - p₁.voltage) :=
            mul_nonneg (div_nonneg (by linarith) (le_of_lt hdpos)) (by linarith)
          linarith

/-! ### Helper lemma: the discharge-series loop -/

lemma dischargeLoop_spec (bat : Battery) (avg : ℚ) (hcap : bat.capacity ≠ 0)
    (hne : bat.discharge_profile ≠ []) :
    ∀ (fuel i : ℕ), ∃ l, dischargeLoop bat avg i fuel = some l
      ∧ (∀ (j : ℕ) (pt : DischargeDataPoint), l[j]? = some pt →
          pt = dischargePointAt bat avg (i + j) ∧ 20 ≤ dischargePctAt bat avg (i + j))
      ∧ (0 < fuel → 20 ≤ dischargePctAt bat avg i →
          l[0]? = some (dischargePointAt bat avg i)) := by
  intro fuel
  induction fuel with
  | zero =>
    intro i
    exact ⟨[], rfl, by simp, fun h _ => absurd h (by omega)⟩
  | succ n ih =>
    intro i
    by_cases hpct : dischargePctAt bat avg i < 20
    · refine ⟨[], ?_, by simp, fun _ h20 => absurd hpct (not_lt.mpr h20)⟩
      unfold dischargeLoop
      rw [if_neg hcap, if_pos hpct]
    · push_neg at hpct
      obtain ⟨v, hv⟩ := interp_isSome hne (dischargePctAt bat avg i)
      obtain ⟨l', hl', hjs, _⟩ := ih (i + 1)
      refine ⟨dischargePointAt bat avg i :: l', ?_, ?_, ?_⟩
      · unfold dischargeLoop
        rw [if_neg hcap, if_neg (not_lt.mpr hpct), hv, hl']
        rfl
      · intro j pt hj
        cases j with
        | zero =>
          simp only [List.getElem?_cons_zero, Option.some.injEq] at hj
          subst hj
          exact ⟨by simp, by simpa using hpct⟩
        | succ j =>
          have hj' := hjs j pt (by simpa using hj)
          have harg : i + 1 + j = i + (j + 1) := by omega
          rw [harg] at hj'
          exact hj'
      · intro _ _
        simp

/-- C4: for a build with a battery of positive capacity, a positive average
current, a nonnegative flight time and a well-formed discharge profile
(strictly descending percentages, non-increasing voltages, non-empty), the
generated discharge series exists and: point i sits at time i*0.5 min with
remaining capacity capacity - avg*1000*(time/60) (1-decimal rounding) and a
retained remaining percentage of at least 20 (the offending point is
excluded); the first point is at time 0 with the full capacity; remaining
capacity and voltage are non-increasing along the series; each point's
voltage is the inverse interpolation of the profile at its percentage,
which clamps to the top entry's voltage above the highest percentage and to
the bottom entry's voltage below the lowest. -/
theorem C4_discharge_series :
    ∀ (b : DroneBuild) (bat : Battery) (ft avg : ℚ) (pts : List DischargeDataPoint),
      b.components.battery = some bat →
      0 < bat.capacity →
      0 < avg →
      0 ≤ ft →
      bat.discharge_profile.Pairwise (fun a c => c.percentage < a.percentage) →
      bat.discharge_profile.Pairwise (fun a c => c.voltage ≤ a.voltage) →
      bat.discharge_profile ≠ [] →
      generate_discharge_curve b ft avg = some pts →
      (∀ (i : ℕ) (pt : DischargeDataPoint), pts[i]? = some pt →
          pt.time = (i : ℚ) * (1/2)
          ∧ pt.remaining_capacity = rnd 1 (dischargeRemaining bat avg i)
          ∧ 20 ≤ dischargePctAt bat avg i
          ∧ pt.voltage
              = rnd 2 ((interpolate_voltage bat.discharge_profile
                  (dischargePctAt bat avg i)).getD 0))
      ∧ (pts[0]?).map timeCap = some (0, (bat.capacity : ℚ))
      ∧ (∀ (i : ℕ) (p q : DischargeDataPoint), pts[i]? = some p → pts[i + 1]? = some q →
          q.remaining_capacity ≤ p.remaining_capacity ∧ q.voltage ≤ p.voltage)
      ∧ (∀ (x : ℚ) (p₀ : DischargePoint) (tl0 : List DischargePoint),
          bat.discharge_profile = p₀ :: tl0 → p₀.percentage < x →
          interpolate_voltage bat.discharge_profile x = some p₀.voltage)
      ∧ (∀ (x : ℚ) (pl : DischargePoint), bat.discharge_profile.getLast? = some pl →
          x < pl.percentage →
          interpolate_voltage bat.discharge_profile x = some pl.voltage) := by
  intro b bat ft avg pts hb hcap havg hft hpd hvd hne hgen
  have hcap0 : bat.capacity ≠ 0 := by omega
  have hcapQ : (0 : ℚ) < (bat.capacity : ℚ) := by exact_mod_cast hcap
  obtain ⟨l, hl, hjs, hhead⟩ := dischargeLoop_spec bat avg hcap0 hne
    ((qtrunc (ft / (1/2)) + 1).toNat) 0
  simp only [generate_discharge_curve, hb] at hgen
  rw [hgen] at hl
  have hpts : pts = l := Option.some.inj hl
  subst hpts
  have hrem0 : dischargeRemaining bat avg 0 = (bat.capacity : ℚ) := by
    unfold dischargeRemaining
    push_cast
    ring
  have hpct0 : dischargePctAt bat avg 0 = 100 := by
    unfold dischargePctAt
    rw [hrem0, div_self (ne_of_gt hcapQ)]
    norm_num
  refine ⟨?_, ?_, ?_, ?_, ?_⟩
  · intro i pt hi
    obtain ⟨hpt, hpct⟩ := hjs i pt hi
    rw [Nat.zero_add] at hpt hpct
    subst hpt
    refine ⟨?_, rfl, hpct, rfl⟩
    exact rnd_nat_mul_half i
  · have hN : 0 < (qtrunc (ft / (1/2)) + 1).toNat := by
      have h2 : (0 : ℚ) ≤ ft / (1/2) := div_nonneg hft (by norm_num)
      have h3 : 0 ≤ qtrunc (ft / (1/2)) := by
        unfold qtrunc
        rw [if_pos h2]
        exact Int.floor_nonneg.mpr h2
      omega
    rw [hhead hN (by rw [hpct0]; norm_num)]
    simp only [Option.map_some', timeCap, Option.some.injEq, Prod.mk.injEq]
    constructor
    · have h0 : (dischargePointAt bat avg 0).time = rnd 1 (((0 : ℕ) : ℚ) * (1/2)) := rfl
      rw [h0, rnd_nat_mul_half 0]
      norm_num
    · have h0 : (dischargePointAt bat avg 0).remaining_capacity
          = rnd 1 (dischargeRemaining bat avg 0) := rfl
      rw [h0, hrem0]
      exact rnd_intCast 1 bat.capacity
  · intro i p q hp hq
    obtain ⟨hp', _⟩ := hjs i p hp
    obtain ⟨hq', _⟩ := hjs (i + 1) q hq
    rw [Nat.zero_add] at hp' hq'
    subst hp'
    subst hq'
    have hdiff : dischargeRemaining bat avg (i + 1)
        = dischargeRemaining bat avg i - avg * (1000 / 120) := by
      unfold dischargeRemaining
      push_cast
      ring
    have hremle : dischargeRemaining bat avg (i + 1) ≤ dischargeRemaining bat avg i := by
      have hpos : 0 < avg * (1000 / 120) := by positivity
      linarith
    have hpcts : dischargePctAt bat avg (i + 1) ≤ dischargePctAt bat avg i := by
      unfold dischargePctAt
      have hdiv : dischargeRemaining bat avg (i + 1) / (bat.capacity : ℚ)
          ≤ dischargeRemaining bat avg i / (bat.capacity : ℚ) :=
        (div_le_div_right hcapQ).mpr hremle
      nlinarith
    constructor
    · show rnd 1 (dischargeRemaining bat avg (i + 1)) ≤ rnd 1 (dischargeRemaining bat avg i)
      exact rnd_mono 1 hremle
    · show rnd 2 ((interpolate_voltage bat.discharge_profile
          (dischargePctAt bat avg (i + 1))).getD 0)
        ≤ rnd 2 ((interpolate_voltage bat.discharge_profile
          (dischargePctAt bat avg i)).getD 0)
      apply rnd_mono
      rcases hprof : bat.discharge_profile with _ | ⟨p₀, tl⟩
      · exact absurd hprof hne
      · rw [hprof] at hpd hvd
        exact interp_mono tl p₀ hpd hvd _ _ hpcts
  · intro x p₀ tl0 hprof hgt
    rw [hprof] at hpd ⊢
    exact interp_above hpd hgt
  · intro x pl hgl hlt
    exact interp_below hpd hgl hlt

/-- Witness for C4: one minute of flight at 18 A on the 1500 mAh battery
produces the three-point series `ptsW`, whose first point sits at time 0
with the full 1500 mAh. -/
theorem C4_witness :
    generate_discharge_curve batteryOnlyBuild 1 18 = some ptsW
    ∧ (ptsW[0]?).map timeCap = some (0, (1500 : ℚ)) := by
  have hgen : generate_discharge_curve batteryOnlyBuild 1 18 = some ptsW := by
    norm_num [generate_discharge_curve, batteryOnlyBuild, batStd, dischargeLoop, dischargePctAt,
      dischargeRemaining, dischargePointAt, interpolate_voltage, voltageScan, qtrunc, rnd,
      roundHE, ptsW]
  refine ⟨hgen, ?_⟩
  have h := C4_discharge_series batteryOnlyBuild batStd 1 18 ptsW rfl (by norm_num [batStd])
    (by norm_num) (by norm_num) (by norm_num [batStd, List.pairwise_cons])
    (by norm_num [batStd, List.pairwise_cons]) (by simp [batStd]) hgen
  have h2 := h.2.1
  simpa [batStd] using h2
